import Mathlib

/-!
Verification development for the arrhythmia inference service
(repository `guardian_angel3`).

The definitions below are a shallow embedding of the Python sources:
- `core/validator.py`   (InputValidator)
- `core/feature_extractor.py` (HRVFeatureExtractor and its dataclasses)
- `core/predictor.py`   (ArrhythmiaPredictor.predict)

Modelling conventions:
- RR interval values arriving at the validator are machine integers,
  modelled as `Int`; timestamps are modelled by their epoch value in
  seconds as rationals, so a window is a pair of rationals.
- Floating point numbers are modelled by exact arithmetic: rational
  numbers wherever the source performs field operations only, and real
  numbers where a square root or logarithm occurs.  The float value
  `np.nan` is modelled by `Option`: `none` is the not-a-number sentinel,
  `some x` a finite value, and `np.isfinite` is `Option.isSome`.
- Calls into external libraries whose numerics are not part of this
  repository (scipy cubic interpolation, scipy Welch PSD) are modelled
  as oracle function parameters; every float an oracle returns is a
  rational, so oracles return rationals.
-/

open scoped Classical

namespace GuardianAngel

/-! ## Input validator (`core/validator.py`) -/

/-- Thresholds of `InputValidator.__init__`, defaults from `config.py`
(`Settings`): counts 40–200, values 200–2000 ms, window 30–120 s. -/
structure ValidatorConfig where
  min_rr_count : ℕ
  max_rr_count : ℕ
  min_rr_value_ms : ℤ
  max_rr_value_ms : ℤ
  min_window_duration_s : ℤ
  max_window_duration_s : ℤ

/-- The reference defaults of `config.Settings`. -/
def defaultValidatorConfig : ValidatorConfig :=
  ⟨40, 200, 200, 2000, 30, 120⟩

/-- The `error_code` strings used by `InputValidator`. -/
inductive ValErrorCode where
  | INSUFFICIENT_DATA
  | EXCESSIVE_DATA
  | INVALID_RR_VALUES
  | INSUFFICIENT_VALID_DATA
  | WINDOW_TOO_SHORT
  | WINDOW_TOO_LONG
deriving DecidableEq, Repr

/-- The `error_details` dictionaries built by `InputValidator`, one
constructor per dictionary shape, fields in source order. -/
inductive ValErrorDetails where
  | receivedMin (received_count minimum_required : ℕ)
  | receivedMax (received_count maximum_allowed : ℕ)
  | invalidValues (invalid_count total_count : ℕ)
      (valid_range_lo valid_range_hi : ℤ) (sample_invalid_values : List ℤ)
  | insufficientValid (original_count valid_count minimum_required : ℕ)
  | windowShort (window_duration_s : ℚ) (minimum_required_s : ℤ)
  | windowLong (window_duration_s : ℚ) (maximum_allowed_s : ℤ)
deriving DecidableEq, Repr

/-- `ValidationResult` dataclass (the human-readable `error_message`
string is not modelled; code and structured details are). -/
structure ValidationResult where
  is_valid : Bool
  error_code : Option ValErrorCode := none
  error_details : Option ValErrorDetails := none
  cleaned_rr_intervals : Option (List ℤ) := none
  window_duration_s : Option ℚ := none
deriving DecidableEq, Repr

/-- Membership test of `InputValidator._validate_values`:
`self.min_rr_value_ms <= rr <= self.max_rr_value_ms`. -/
def rrInRange (cfg : ValidatorConfig) (rr : ℤ) : Bool :=
  decide (cfg.min_rr_value_ms ≤ rr ∧ rr ≤ cfg.max_rr_value_ms)

/-- `InputValidator._validate_count`. -/
def validateCount (cfg : ValidatorConfig) (rr : List ℤ) : ValidationResult :=
  let count := rr.length
  if count < cfg.min_rr_count then
    { is_valid := false
      error_code := some .INSUFFICIENT_DATA
      error_details := some (.receivedMin count cfg.min_rr_count) }
  else if count > cfg.max_rr_count then
    { is_valid := false
      error_code := some .EXCESSIVE_DATA
      error_details := some (.receivedMax count cfg.max_rr_count) }
  else
    { is_valid := true }

/-- `InputValidator._validate_values`: one pass over the input keeping
in-range elements (`cleaned`) and counting the dropped ones, remembering
the first 5 dropped values for diagnostics; a single pass appending to
`cleaned` / to the first-five prefix of the dropped values is embedded as
`filter` / `take 5` of the dropped sublist.  Rejects when
`invalid_count > len(rr) * 0.5` (exact in binary floating point for any
list length, hence embedded as the same rational comparison). -/
def validateValues (cfg : ValidatorConfig) (rr : List ℤ) : ValidationResult :=
  let cleaned := rr.filter (fun x => rrInRange cfg x)
  let droppedList := rr.filter (fun x => !(rrInRange cfg x))
  let invalidCount := droppedList.length
  let invalidValues := droppedList.take 5
  if (invalidCount : ℚ) > (rr.length : ℚ) * (1/2) then
    { is_valid := false
      error_code := some .INVALID_RR_VALUES
      error_details := some
        (.invalidValues invalidCount rr.length
          cfg.min_rr_value_ms cfg.max_rr_value_ms invalidValues) }
  else
    { is_valid := true
      cleaned_rr_intervals := some cleaned }

/-- `InputValidator._validate_window`; the two timestamps are modelled
by their epoch second values, so `(end - start).total_seconds()` is the
rational difference. -/
def validateWindow (cfg : ValidatorConfig) (startT endT : ℚ) : ValidationResult :=
  let duration := endT - startT
  if duration < (cfg.min_window_duration_s : ℚ) then
    { is_valid := false
      error_code := some .WINDOW_TOO_SHORT
      error_details := some (.windowShort duration cfg.min_window_duration_s) }
  else if duration > (cfg.max_window_duration_s : ℚ) then
    { is_valid := false
      error_code := some .WINDOW_TOO_LONG
      error_details := some (.windowLong duration cfg.max_window_duration_s) }
  else
    { is_valid := true
      window_duration_s := some duration }

/-- `InputValidator.validate`: count check, value check, post-filter
sufficiency, window check, short-circuiting on the first failure. -/
def validate (cfg : ValidatorConfig) (rr : List ℤ) (startT endT : ℚ) :
    ValidationResult :=
  let countResult := validateCount cfg rr
  if countResult.is_valid = false then countResult
  else
    let valuesResult := validateValues cfg rr
    if valuesResult.is_valid = false then valuesResult
    else
      let cleaned := (valuesResult.cleaned_rr_intervals).getD []
      if cleaned.length < cfg.min_rr_count then
        { is_valid := false
          error_code := some .INSUFFICIENT_VALID_DATA
          error_details := some
            (.insufficientValid rr.length cleaned.length cfg.min_rr_count) }
      else
        let windowResult := validateWindow cfg startT endT
        if windowResult.is_valid = false then windowResult
        else
          { is_valid := true
            cleaned_rr_intervals := some cleaned
            window_duration_s := windowResult.window_duration_s }

/-! ## Numeric helpers shared by the extractors -/

/-- `np.mean` on exact rationals: sum divided by length (division by zero
for the empty list follows the Lean convention `q / 0 = 0`). -/
def listMean (l : List ℚ) : ℚ := l.sum / l.length

/-- The quantity under `np.std(l, ddof=1)`: sum of squared deviations
from the mean divided by `n - 1`. -/
def sampleVar (l : List ℚ) : ℚ :=
  (l.map (fun x => (x - listMean l) ^ 2)).sum / ((l.length : ℚ) - 1)

/-- `np.std(l, ddof=1)` itself, the sample standard deviation. -/
noncomputable def sampleStd (l : List ℚ) : ℝ := Real.sqrt ((sampleVar l : ℚ) : ℝ)

/-- `np.diff`: successive differences `l[i+1] - l[i]`. -/
def diffList (l : List ℚ) : List ℚ := List.zipWith (fun a b => b - a) l l.tail

/-- Python `int(q)`: truncation toward zero. -/
def pyInt (q : ℚ) : ℤ := if q < 0 then -(Int.floor (-q)) else Int.floor q

/-- `np.cumsum`. -/
def cumsum (l : List ℚ) : List ℚ := (l.scanl (fun a b => a + b) 0).tail

/-- `np.linspace a b n`: `n` evenly spaced points from `a` to `b`, both
endpoints included (numpy default `endpoint=True`). -/
def linspace (a b : ℚ) (n : ℕ) : List ℚ :=
  if n = 0 then []
  else if n = 1 then [a]
  else (List.range n).map (fun k : ℕ => a + (b - a) * (k : ℚ) / ((n : ℚ) - 1))

/-- `np.trapz` over a list of already paired `(x, y)` points:
`sum((x[i+1] - x[i]) * (y[i] + y[i+1]) / 2)`. -/
def trapzPairs (sel : List (ℚ × ℚ)) : ℚ :=
  (List.zipWith (fun p q => (q.1 - p.1) * (p.2 + q.2) / 2) sel sel.tail).sum

/-! ## HRV feature extractor (`core/feature_extractor.py`) -/

/-- The constructor parameters of `HRVFeatureExtractor.__init__`. -/
structure ExtractorConfig where
  td_min_intervals : ℕ
  fd_resample_rate : ℚ
  fd_min_intervals : ℕ
  nl_m : ℕ
  nl_r_factor : ℚ
  nl_min_intervals : ℕ

/-- The stated defaults of `HRVFeatureExtractor.__init__`. -/
def defaultExtractorConfig : ExtractorConfig := ⟨10, 4, 20, 2, 1/5, 30⟩

/-- `TimeDomainFeatures` dataclass; numeric fields are `Option ℝ` with
`none` the `np.nan` sentinel. -/
structure TimeDomainFeatures where
  mean_rr : Option ℝ
  sdnn : Option ℝ
  rmssd : Option ℝ
  pnn50 : Option ℝ
  pnn20 : Option ℝ
  mean_hr : Option ℝ
  std_hr : Option ℝ
  cv_rr : Option ℝ
  num_intervals : ℕ
  is_valid : Bool

/-- `TimeDomainFeatures.to_array`, in source field order. -/
def tdToArray (f : TimeDomainFeatures) : List (Option ℝ) :=
  [f.mean_rr, f.sdnn, f.rmssd, f.pnn50, f.pnn20, f.mean_hr, f.std_hr, f.cv_rr]

/-- `TimeDomainFeatures.to_dict`, in source key order. -/
def tdToDict (f : TimeDomainFeatures) : List (String × Option ℝ) :=
  [("mean_rr", f.mean_rr), ("sdnn", f.sdnn), ("rmssd", f.rmssd),
   ("pnn50", f.pnn50), ("pnn20", f.pnn20), ("mean_hr", f.mean_hr),
   ("std_hr", f.std_hr), ("cv_rr", f.cv_rr)]

/-- `HRVFeatureExtractor._invalid_time_domain`. -/
def invalidTimeDomain (n : ℕ) : TimeDomainFeatures :=
  ⟨none, none, none, none, none, none, none, none, n, false⟩

/-- Instantaneous heart rate `60000.0 / rr_ms`, elementwise. -/
def hrList (rr : List ℚ) : List ℚ := rr.map (fun x => 60000 / x)

/-- `float(np.sum(abs_diff > thr) / len(diff) * 100)` guarded by
`len(diff) > 0` as in `_extract_time_domain`. -/
def pnnPercent (rr : List ℚ) (thr : ℚ) : ℚ :=
  let d := diffList rr
  if d.length > 0 then
    (((d.filter (fun x => decide (thr < |x|))).length : ℚ) / d.length) * 100
  else 0

/-- The feature values computed in the `try` block of
`HRVFeatureExtractor._extract_time_domain` (before the validity gate). -/
noncomputable def timeDomainRaw (rr : List ℚ) : TimeDomainFeatures where
  mean_rr := some ((listMean rr : ℚ) : ℝ)
  sdnn := some (sampleStd rr)
  rmssd := some (Real.sqrt ((listMean ((diffList rr).map (fun d => d ^ 2)) : ℚ) : ℝ))
  pnn50 := some ((pnnPercent rr 50 : ℚ) : ℝ)
  pnn20 := some ((pnnPercent rr 20 : ℚ) : ℝ)
  mean_hr := some ((listMean (hrList rr) : ℚ) : ℝ)
  std_hr := some (sampleStd (hrList rr))
  cv_rr := some (if 0 < listMean rr
    then sampleStd rr / ((listMean rr : ℚ) : ℝ) * 100 else 0)
  num_intervals := rr.length
  is_valid := true

/-- Reads a numeric field for a range check; the gate below only reads a
field through this after establishing it is finite (`isSome`). -/
def getR (o : Option ℝ) : ℝ := o.getD 0

/-- `HRVFeatureExtractor._validate_time_domain`: all fields finite, and
the listed physiological range checks (a non-finite float fails the
first conjunct in the source, so the Boolean outcome agrees). -/
def validTimeDomain (f : TimeDomainFeatures) : Prop :=
  (∀ o ∈ tdToArray f, o.isSome = true) ∧
  ¬(getR f.mean_rr ≤ 0 ∨ getR f.mean_rr > 3000) ∧
  ¬(getR f.mean_hr ≤ 0 ∨ getR f.mean_hr > 300) ∧
  ¬(getR f.sdnn < 0 ∨ getR f.rmssd < 0) ∧
  ¬(getR f.pnn50 < 0 ∨ getR f.pnn50 > 100)

/-- `HRVFeatureExtractor._extract_time_domain`: minimum-interval check,
computation, then the post-hoc validity gate which keeps the computed
values and only flips the flag. -/
noncomputable def extractTimeDomain (cfg : ExtractorConfig) (rr : List ℚ) :
    TimeDomainFeatures :=
  if rr.length < cfg.td_min_intervals then invalidTimeDomain rr.length
  else
    let f := timeDomainRaw rr
    if validTimeDomain f then f else { f with is_valid := false }

/-- `FrequencyDomainFeatures` dataclass.  The field `lf_hf_quot` embeds
the source field holding the LF/HF quotient (`lf_power / hf_power`). -/
structure FrequencyDomainFeatures where
  lf_power : Option ℝ
  hf_power : Option ℝ
  lf_hf_quot : Option ℝ
  total_power : Option ℝ
  lf_nu : Option ℝ
  hf_nu : Option ℝ
  num_intervals : ℕ
  is_valid : Bool

/-- `FrequencyDomainFeatures.to_array`, in source field order. -/
def fdToArray (f : FrequencyDomainFeatures) : List (Option ℝ) :=
  [f.lf_power, f.hf_power, f.lf_hf_quot, f.total_power, f.lf_nu, f.hf_nu]

/-- `FrequencyDomainFeatures.to_dict`, in source key order. -/
def fdToDict (f : FrequencyDomainFeatures) : List (String × Option ℝ) :=
  [("lf_power", f.lf_power), ("hf_power", f.hf_power),
   ("lf_hf_ratio", f.lf_hf_quot), ("total_power", f.total_power),
   ("lf_nu", f.lf_nu), ("hf_nu", f.hf_nu)]

/-- `HRVFeatureExtractor._invalid_frequency_domain`. -/
def invalidFrequencyDomain (n : ℕ) : FrequencyDomainFeatures :=
  ⟨none, none, none, none, none, none, n, false⟩

/-- `HRVFeatureExtractor.LF_BAND = (0.04, 0.15)`. -/
def LF_BAND : ℚ × ℚ := (4/100, 15/100)

/-- `HRVFeatureExtractor.HF_BAND = (0.15, 0.40)`. -/
def HF_BAND : ℚ × ℚ := (15/100, 40/100)

/-- `HRVFeatureExtractor._band_power`: select the bins with
`band[0] <= f <= band[1]`; an empty selection integrates to `0.0`,
otherwise `np.trapz(psd[idx], freqs[idx])`. -/
def bandPower (freqs psd : List ℚ) (band : ℚ × ℚ) : ℚ :=
  let sel := (freqs.zip psd).filter (fun p => decide (band.1 ≤ p.1 ∧ p.1 ≤ band.2))
  if sel.isEmpty then 0 else trapzPairs sel

/-- The tail of `HRVFeatureExtractor._extract_frequency_domain` given
the Welch frequency grid and PSD: band powers, derived quantities, and
the `_validate_frequency_domain` gate (which keeps computed values and
flips the flag; its finiteness checks always hold on exact values). -/
noncomputable def fdFromPsd (freqs psd : List ℚ) (n : ℕ) :
    FrequencyDomainFeatures :=
  let lf := bandPower freqs psd LF_BAND
  let hf := bandPower freqs psd HF_BAND
  let total := lf + hf
  let f : FrequencyDomainFeatures :=
    { lf_power := some ((lf : ℚ) : ℝ)
      hf_power := some ((hf : ℚ) : ℝ)
      lf_hf_quot := if 0 < hf then some (((lf : ℚ) : ℝ) / ((hf : ℚ) : ℝ)) else none
      total_power := some ((total : ℚ) : ℝ)
      lf_nu := if 0 < total then some (((lf : ℚ) : ℝ) / ((total : ℚ) : ℝ) * 100) else none
      hf_nu := if 0 < total then some (((hf : ℚ) : ℝ) / ((total : ℚ) : ℝ) * 100) else none
      num_intervals := n
      is_valid := true }
  if lf < 0 ∨ hf < 0 then { f with is_valid := false } else f

/-- The cumulative time axis of `_extract_frequency_domain`:
`np.insert(np.cumsum(rr_ms) / 1000, 0, 0)[:-1]`. -/
def timeAxis (rr : List ℚ) : List ℚ :=
  (0 :: (cumsum rr).map (fun x => x / 1000)).dropLast

/-- `HRVFeatureExtractor._interpolate_rr`.  The scipy cubic interpolant
with extrapolation (`interpolate.interp1d(time_sec, rr_ms, kind='cubic',
fill_value='extrapolate')`) is external library numerics, modelled by
the oracle parameter `interp` taking the knot times, the knot values and
the query point.  Grid: `np.linspace(0, duration, int(duration * rate))`
with `duration = time_sec[-1]`. -/
def interpolateRR (cfg : ExtractorConfig)
    (interp : List ℚ → List ℚ → ℚ → ℚ) (rr ts : List ℚ) :
    List ℚ × List ℚ :=
  let duration := ts.getLastD 0
  let n := (pyInt (duration * cfg.fd_resample_rate)).toNat
  let grid := linspace 0 duration n
  (grid.map (interp ts rr), grid)

/-- `HRVFeatureExtractor._extract_frequency_domain`.  The Welch PSD
estimate (`scipy.signal.welch`) is external library numerics, modelled
by the oracle parameter `welch` mapping the uniformly resampled series
to the pair (frequency bins, PSD values). -/
noncomputable def extractFrequencyDomain (cfg : ExtractorConfig)
    (welch : List ℚ → List ℚ × List ℚ)
    (interp : List ℚ → List ℚ → ℚ → ℚ) (rr : List ℚ) :
    FrequencyDomainFeatures :=
  if rr.length < cfg.fd_min_intervals then invalidFrequencyDomain rr.length
  else
    let ts := timeAxis rr
    let ri := (interpolateRR cfg interp rr ts).1
    if ri.length < 10 then invalidFrequencyDomain rr.length
    else
      let fp := welch ri
      fdFromPsd fp.1 fp.2 rr.length

/-- `NonlinearFeatures` dataclass. -/
structure NonlinearFeatures where
  sample_entropy : Option ℝ
  num_intervals : ℕ
  is_valid : Bool

/-- `NonlinearFeatures.to_array`. -/
def nlToArray (f : NonlinearFeatures) : List (Option ℝ) := [f.sample_entropy]

/-- `NonlinearFeatures.to_dict`. -/
def nlToDict (f : NonlinearFeatures) : List (String × Option ℝ) :=
  [("sample_entropy", f.sample_entropy)]

/-- Chebyshev distance `np.max(np.abs(a - b))` of two templates. -/
def chebDist (a b : List ℚ) : ℚ :=
  (List.zipWith (fun x y => |x - y|) a b).foldr max 0

/-- The template list of `_count_matches`:
`[signal_data[i:i+m] for i in range(N - m)]`. -/
def templatesOf (s : List ℚ) (m : ℕ) : List (List ℚ) :=
  (List.range (s.length - m)).map (fun i => (s.drop i).take m)

/-- The double loop of `_count_matches`: over pairs `i < j` of template
indices, count those whose Chebyshev distance is `<= r`. -/
noncomputable def pairCountLe (r : ℝ) : List (List ℚ) → ℕ
  | [] => 0
  | t :: rest =>
      (rest.filter (fun u => decide (((chebDist t u : ℚ) : ℝ) ≤ r))).length +
        pairCountLe r rest

/-- `HRVFeatureExtractor._count_matches`. -/
noncomputable def countMatches (s : List ℚ) (m : ℕ) (r : ℝ) : ℕ :=
  pairCountLe r (templatesOf s m)

/-- `HRVFeatureExtractor._sample_entropy` (value `none` models the
`np.nan` returned when either match count is zero). -/
noncomputable def sampleEntropyFn (cfg : ExtractorConfig) (s : List ℚ) :
    Option ℝ :=
  let r : ℝ := (cfg.nl_r_factor : ℝ) * sampleStd s
  if r = 0 then some 0
  else
    let B := countMatches s cfg.nl_m r
    let A := countMatches s (cfg.nl_m + 1) r
    if A = 0 ∨ B = 0 then none
    else some (-Real.log ((A : ℝ) / (B : ℝ)))

/-- `HRVFeatureExtractor._validate_nonlinear`: finite and nonnegative. -/
def validNonlinear (f : NonlinearFeatures) : Prop :=
  ∃ v, f.sample_entropy = some v ∧ 0 ≤ v

/-- `HRVFeatureExtractor._extract_nonlinear`. -/
noncomputable def extractNonlinear (cfg : ExtractorConfig) (rr : List ℚ) :
    NonlinearFeatures :=
  if rr.length < cfg.nl_min_intervals then ⟨none, rr.length, false⟩
  else
    let f : NonlinearFeatures := ⟨sampleEntropyFn cfg rr, rr.length, true⟩
    if validNonlinear f then f else { f with is_valid := false }

/-- `HRVFeatures` dataclass. -/
structure HRVFeatures where
  time_domain : TimeDomainFeatures
  frequency_domain : FrequencyDomainFeatures
  nonlinear : NonlinearFeatures
  num_intervals : ℕ
  is_valid : Bool
  invalid_domains : List String

/-- `HRVFeatureExtractor.extract`: run the three domain extractors,
record the invalid domain names in source order, and set overall
validity to the time-domain validity alone. -/
noncomputable def extract (cfg : ExtractorConfig)
    (welch : List ℚ → List ℚ × List ℚ)
    (interp : List ℚ → List ℚ → ℚ → ℚ) (rr : List ℚ) : HRVFeatures :=
  let td := extractTimeDomain cfg rr
  let fd := extractFrequencyDomain cfg welch interp rr
  let nl := extractNonlinear cfg rr
  { time_domain := td
    frequency_domain := fd
    nonlinear := nl
    num_intervals := rr.length
    is_valid := td.is_valid
    invalid_domains :=
      (if td.is_valid then [] else ["time_domain"]) ++
      (if fd.is_valid then [] else ["frequency_domain"]) ++
      (if nl.is_valid then [] else ["nonlinear"]) }

/-- `HRVFeatures.to_dict`: the three domain dicts merged in order; all
fifteen keys are pairwise distinct, so `dict.update` is concatenation. -/
def hrvToDict (f : HRVFeatures) : List (String × Option ℝ) :=
  tdToDict f.time_domain ++ fdToDict f.frequency_domain ++ nlToDict f.nonlinear

/-- `HRVFeatures.to_array`: `np.concatenate` of the three domain arrays. -/
def hrvToArray (f : HRVFeatures) : List (Option ℝ) :=
  tdToArray f.time_domain ++ fdToArray f.frequency_domain ++ nlToArray f.nonlinear

/-- `HRVFeatureExtractor.FEATURE_NAMES`. -/
def FEATURE_NAMES : List String :=
  ["mean_rr", "sdnn", "rmssd", "pnn50",
   "pnn20", "mean_hr", "std_hr", "cv_rr",
   "lf_power", "hf_power", "lf_hf_ratio",
   "total_power", "lf_nu", "hf_nu",
   "sample_entropy"]

/-! ## Predictor (`core/predictor.py`) -/

/-- The distinct `InferenceError` raises of `ArrhythmiaPredictor.predict`. -/
inductive InferenceErrorKind where
  | notLoaded
  | invalidFeatures (invalid_domains : List String)
  | featureCountMismatch (expected got : ℕ)
  | nonFiniteFeatures (names : List String)

/-- The final clamp `max(0.0, min(1.0, probability))`. -/
noncomputable def clamp01 (x : ℝ) : ℝ := max 0 (min 1 x)

/-- `ArrhythmiaPredictor.predict`.  The loaded XGBoost booster is the
abstract scoring parameter `model`; `featureNames` is the metadata list
`self._feature_names` whose length is `self.feature_count`. -/
noncomputable def predict (loaded : Bool) (featureNames : List String)
    (model : List ℝ → ℝ) (f : HRVFeatures) : Except InferenceErrorKind ℝ :=
  if !loaded then .error .notLoaded
  else if !f.is_valid then .error (.invalidFeatures f.invalid_domains)
  else
    let arr := hrvToArray f
    if arr.length ≠ featureNames.length then
      .error (.featureCountMismatch featureNames.length arr.length)
    else if arr.any (fun o => o.isNone) then
      .error (.nonFiniteFeatures
        (((arr.zip featureNames).filter (fun p => p.1.isNone)).map (fun p => p.2)))
    else .ok (clamp01 (model (arr.map (fun o => o.getD 0))))

/-! ## Reference models for the sample-entropy claim

The claim describes the estimator with templates "built at each valid
starting offset" and "ordered pairs of distinct templates"; the
following definitions follow those words, to be compared with the
source embedding above. -/

/-- Spec-model templates: one template of length `m` at every offset at
which it fits, `0 ≤ i ≤ N - m` (the source's `templatesOf` stops one
offset earlier, at `range (N - m)`). -/
def refTemplatesOf (s : List ℚ) (m : ℕ) : List (List ℚ) :=
  (List.range (s.length - m + 1)).map (fun i => (s.drop i).take m)

/-- Spec-model match count: ordered pairs of distinct template
occurrences at Chebyshev distance at most `r` (each unordered pair is
counted once in each direction). -/
noncomputable def orderedCountLe (r : ℝ) : List (List ℚ) → ℕ
  | [] => 0
  | t :: rest =>
      (rest.filter (fun u => decide (((chebDist t u : ℚ) : ℝ) ≤ r))).length +
      (rest.filter (fun u => decide (((chebDist u t : ℚ) : ℝ) ≤ r))).length +
      orderedCountLe r rest

/-- The claim's reference sample entropy: tolerance `r` from the sample
standard deviation, templates at every fitting offset, ordered-pair
match counts, `-ln(A/B)` with the zero-count sentinel. -/
noncomputable def specSampleEntropyRef (cfg : ExtractorConfig)
    (s : List ℚ) : Option ℝ :=
  let r : ℝ := (cfg.nl_r_factor : ℝ) * sampleStd s
  if r = 0 then some 0
  else
    let B := orderedCountLe r (refTemplatesOf s cfg.nl_m)
    let A := orderedCountLe r (refTemplatesOf s (cfg.nl_m + 1))
    if A = 0 ∨ B = 0 then none
    else some (-Real.log ((A : ℝ) / (B : ℝ)))

/-- The amended reference: identical, but over the source's template
offsets `range (N - m)` — the last fitting offset is excluded at each
length, exactly as `_count_matches` does. -/
noncomputable def sampleEntropyAmendedRef (cfg : ExtractorConfig)
    (s : List ℚ) : Option ℝ :=
  let r : ℝ := (cfg.nl_r_factor : ℝ) * sampleStd s
  if r = 0 then some 0
  else
    let B := orderedCountLe r (templatesOf s cfg.nl_m)
    let A := orderedCountLe r (templatesOf s (cfg.nl_m + 1))
    if A = 0 ∨ B = 0 then none
    else some (-Real.log ((A : ℝ) / (B : ℝ)))

/-- Decidable evaluation helper: unordered template pairs that are
exactly equal (used to evaluate the match counters on inputs whose
values are pairwise farther apart than the tolerance). -/
def pairCountEqT : List (List ℚ) → ℕ
  | [] => 0
  | t :: rest =>
      (rest.filter (fun u => decide (t = u))).length + pairCountEqT rest

/-- Decidable evaluation helper: ordered version of `pairCountEqT`. -/
def orderedCountEqT : List (List ℚ) → ℕ
  | [] => 0
  | t :: rest =>
      (rest.filter (fun u => decide (t = u))).length +
      (rest.filter (fun u => decide (u = t))).length +
      orderedCountEqT rest

/-- The concrete 30-interval probe sequence for the sample-entropy
claim: values on the five levels 500/800/1100/1400/1700 ms arranged so
that all length-3 templates at the source's offsets 0..26 are pairwise
distinct while the template at the omitted offset 27 repeats the one at
offset 10. -/
def sampEnProbe : List ℚ :=
  [500, 500, 500, 800, 500, 1100, 500, 1400, 500, 1700,
   800, 800, 1100, 800, 1400, 800, 1700, 1100, 1100, 1400,
   1100, 1700, 1400, 1400, 1700, 1700, 500, 800, 800, 1100]

/-! ## Theorems -/

/-- Claim C2: the feature vector has the 15 entries in the fixed order
time-domain (8), frequency-domain (6), nonlinear (1); the key order of
`to_dict` equals the array position order and equals `FEATURE_NAMES`,
the keys are pairwise distinct, and at every index the array value is
the value stored under the corresponding key. -/
theorem claim_feature_vector_order (f : HRVFeatures) :
    (hrvToArray f).length = 15 ∧
    (tdToArray f.time_domain).length = 8 ∧
    (fdToArray f.frequency_domain).length = 6 ∧
    (nlToArray f.nonlinear).length = 1 ∧
    hrvToArray f =
      tdToArray f.time_domain ++ fdToArray f.frequency_domain ++
        nlToArray f.nonlinear ∧
    FEATURE_NAMES =
      ["mean_rr", "sdnn", "rmssd", "pnn50", "pnn20", "mean_hr", "std_hr",
       "cv_rr", "lf_power", "hf_power", "lf_hf_ratio", "total_power",
       "lf_nu", "hf_nu", "sample_entropy"] ∧
    FEATURE_NAMES.Nodup ∧
    (hrvToDict f).map Prod.fst = FEATURE_NAMES ∧
    (hrvToDict f).map Prod.snd = hrvToArray f := by
  refine ⟨rfl, rfl, rfl, rfl, rfl, rfl, by decide, rfl, rfl⟩

/-- Claim C1: overall validity of `extract` equals time-domain validity
(for every frequency/nonlinear outcome), and `invalid_domains` holds
exactly the names of the domains whose extractor came back invalid. -/
theorem claim_overall_validity (cfg : ExtractorConfig)
    (welch : List ℚ → List ℚ × List ℚ) (interp : List ℚ → List ℚ → ℚ → ℚ)
    (rr : List ℚ) :
    (extract cfg welch interp rr).is_valid
      = (extractTimeDomain cfg rr).is_valid ∧
    (∀ s, s ∈ (extract cfg welch interp rr).invalid_domains ↔
      ((s = "time_domain" ∧
          (extractTimeDomain cfg rr).is_valid = false) ∨
       (s = "frequency_domain" ∧
          (extractFrequencyDomain cfg welch interp rr).is_valid = false) ∨
       (s = "nonlinear" ∧
          (extractNonlinear cfg rr).is_valid = false))) := by
  refine ⟨rfl, fun s => ?_⟩
  cases h1 : (extractTimeDomain cfg rr).is_valid <;>
    cases h2 : (extractFrequencyDomain cfg welch interp rr).is_valid <;>
      cases h3 : (extractNonlinear cfg rr).is_valid <;>
        simp [extract, h1, h2, h3]

/-- Claim C10: with the model loaded, features whose overall flag is
false are rejected with the typed invalid-features inference error, for
every scoring function (the model is never consulted); features whose
overall flag is true are never rejected by that check — the outcome is
then an accepted prediction or one of the later checks (feature count,
non-finite values) failing. -/
theorem claim_predict_validity_gate (featureNames : List String)
    (model : List ℝ → ℝ) (f : HRVFeatures) :
    (f.is_valid = false →
      predict true featureNames model f
        = .error (.invalidFeatures f.invalid_domains)) ∧
    (f.is_valid = true →
      (∀ ds, predict true featureNames model f
          ≠ .error (.invalidFeatures ds)) ∧
      ((∃ p, predict true featureNames model f = .ok p) ∨
       (∃ a b, predict true featureNames model f
          = .error (.featureCountMismatch a b)) ∨
       (∃ ns, predict true featureNames model f
          = .error (.nonFiniteFeatures ns)))) := by
  constructor
  · intro h
    simp [predict, h]
  · intro h
    by_cases hl : (hrvToArray f).length = featureNames.length
    · by_cases hn : (hrvToArray f).any (fun o => o.isNone) = true
      · have he : predict true featureNames model f =
            .error (.nonFiniteFeatures
              ((((hrvToArray f).zip featureNames).filter
                  (fun p => p.1.isNone)).map (fun p => p.2))) := by
          simp [predict, h, hl, hn]
        exact ⟨fun ds => by simp [he], Or.inr (Or.inr ⟨_, he⟩)⟩
      · have he : predict true featureNames model f =
            .ok (clamp01 (model ((hrvToArray f).map (fun o => o.getD 0)))) := by
          simp [predict, h, hl, hn]
        exact ⟨fun ds => by simp [he], Or.inl ⟨_, he⟩⟩
    · have he : predict true featureNames model f =
          .error (.featureCountMismatch featureNames.length
            (hrvToArray f).length) := by
        simp [predict, h, hl]
      exact ⟨fun ds => by simp [he], Or.inr (Or.inl ⟨_, _, he⟩)⟩

/-- The 50%-rejection comparison of `_validate_values`, restated over
naturals: `invalid > len * 0.5` iff `2 * invalid > len`. -/
theorem halfThreshold_iff (a n : ℕ) :
    ((a : ℚ) > (n : ℚ) * (1/2)) ↔ 2 * a > n := by
  rw [gt_iff_lt, gt_iff_lt]
  rw [show ((n : ℚ) * (1/2) < (a : ℚ)) ↔ ((n : ℚ) < 2 * a) by
    constructor <;> intro h <;> linarith]
  exact_mod_cast Iff.rfl

/-- Unfolding equation for `validateValues` with its lets inlined. -/
theorem validateValues_eq (cfg : ValidatorConfig) (rr : List ℤ) :
    validateValues cfg rr =
      if (((rr.filter (fun x => !(rrInRange cfg x))).length : ℚ)
          > (rr.length : ℚ) * (1/2)) then
        { is_valid := false
          error_code := some .INVALID_RR_VALUES
          error_details := some
            (.invalidValues (rr.filter (fun x => !(rrInRange cfg x))).length
              rr.length cfg.min_rr_value_ms cfg.max_rr_value_ms
              ((rr.filter (fun x => !(rrInRange cfg x))).take 5)) }
      else
        { is_valid := true
          cleaned_rr_intervals := some (rr.filter (fun x => rrInRange cfg x)) } :=
  rfl

/-- Claim C3: the value check keeps exactly the elements inside the
inclusive range, in input order as a sublist of the input; it rejects
with `INVALID_RR_VALUES` iff the dropped elements are strictly more than
50% of the input, attaching the first `min 5 dropped` offending values;
and on the spec's concrete example it keeps 6 of 8 values and succeeds. -/
theorem claim_value_filter (cfg : ValidatorConfig) (rr : List ℤ) :
    (rr.filter (fun x => rrInRange cfg x)).Sublist rr ∧
    (∀ x, x ∈ rr.filter (fun x => rrInRange cfg x) ↔
      x ∈ rr ∧ cfg.min_rr_value_ms ≤ x ∧ x ≤ cfg.max_rr_value_ms) ∧
    ((validateValues cfg rr).is_valid = false ↔
      2 * (rr.filter (fun x => !(rrInRange cfg x))).length > rr.length) ∧
    ((validateValues cfg rr).is_valid = true →
      (validateValues cfg rr).cleaned_rr_intervals
        = some (rr.filter (fun x => rrInRange cfg x))) ∧
    ((validateValues cfg rr).is_valid = false →
      (validateValues cfg rr).error_code = some .INVALID_RR_VALUES ∧
      (validateValues cfg rr).error_details = some
        (.invalidValues (rr.filter (fun x => !(rrInRange cfg x))).length
          rr.length cfg.min_rr_value_ms cfg.max_rr_value_ms
          ((rr.filter (fun x => !(rrInRange cfg x))).take 5))) ∧
    ((rr.filter (fun x => !(rrInRange cfg x))).take 5).length
      = min 5 (rr.filter (fun x => !(rrInRange cfg x))).length ∧
    validateValues defaultValidatorConfig
        [200, 500, 800, 1000, 2500, 900, 100, 750]
      = { is_valid := true
          cleaned_rr_intervals := some [200, 500, 800, 1000, 900, 750] } := by
  refine ⟨List.filter_sublist rr, ?_, ?_, ?_, ?_, List.length_take 5 _, ?_⟩
  · intro x
    simp [rrInRange, List.mem_filter]
  · rw [show (2 * (rr.filter (fun x => !(rrInRange cfg x))).length > rr.length)
        ↔ (((rr.filter (fun x => !(rrInRange cfg x))).length : ℚ)
            > (rr.length : ℚ) * (1/2)) from (halfThreshold_iff _ _).symm]
    by_cases h : ((rr.filter (fun x => !(rrInRange cfg x))).length : ℚ)
        > (rr.length : ℚ) * (1/2)
    · rw [validateValues_eq, if_pos h]
      simpa using h
    · rw [validateValues_eq, if_neg h]
      simpa using h
  · intro h
    by_cases hc : ((rr.filter (fun x => !(rrInRange cfg x))).length : ℚ)
        > (rr.length : ℚ) * (1/2)
    · rw [validateValues_eq, if_pos hc] at h
      simp at h
    · rw [validateValues_eq, if_neg hc]
  · intro h
    by_cases hc : ((rr.filter (fun x => !(rrInRange cfg x))).length : ℚ)
        > (rr.length : ℚ) * (1/2)
    · rw [validateValues_eq, if_pos hc]
      exact ⟨rfl, rfl⟩
    · rw [validateValues_eq, if_neg hc] at h
      simp at h
  · have hdrop : (([200, 500, 800, 1000, 2500, 900, 100, 750] : List ℤ).filter
        (fun x => !(rrInRange defaultValidatorConfig x))) = [2500, 100] := by
      decide
    have hkeep : (([200, 500, 800, 1000, 2500, 900, 100, 750] : List ℤ).filter
        (fun x => rrInRange defaultValidatorConfig x))
        = [200, 500, 800, 1000, 900, 750] := by
      decide
    have hcond : ¬((((([200, 500, 800, 1000, 2500, 900, 100, 750] : List ℤ)).filter
          (fun x => !(rrInRange defaultValidatorConfig x))).length : ℚ)
        > ((([200, 500, 800, 1000, 2500, 900, 100, 750] : List ℤ).length : ℚ)
            * (1/2))) := by
      rw [hdrop]
      norm_num
    rw [validateValues_eq, if_neg hcond, hkeep]

/-- Claim C4: the validator runs count, value, post-filter sufficiency
and window checks in that order, short-circuiting on the first failure
with the stated error code and diagnostic payload, and on success
returns the cleaned sequence and the window span `end - start`. -/
theorem claim_validate_pipeline (cfg : ValidatorConfig) (rr : List ℤ)
    (s e : ℚ) :
    (validate cfg rr s e).error_code =
      (if rr.length < cfg.min_rr_count then some .INSUFFICIENT_DATA
       else if rr.length > cfg.max_rr_count then some .EXCESSIVE_DATA
       else if ((rr.filter (fun x => !(rrInRange cfg x))).length : ℚ)
           > (rr.length : ℚ) * (1/2) then some .INVALID_RR_VALUES
       else if (rr.filter (fun x => rrInRange cfg x)).length
           < cfg.min_rr_count then some .INSUFFICIENT_VALID_DATA
       else if e - s < (cfg.min_window_duration_s : ℚ) then
         some .WINDOW_TOO_SHORT
       else if e - s > (cfg.max_window_duration_s : ℚ) then
         some .WINDOW_TOO_LONG
       else none) ∧
    (validate cfg rr s e).error_details =
      (if rr.length < cfg.min_rr_count then
         some (.receivedMin rr.length cfg.min_rr_count)
       else if rr.length > cfg.max_rr_count then
         some (.receivedMax rr.length cfg.max_rr_count)
       else if ((rr.filter (fun x => !(rrInRange cfg x))).length : ℚ)
           > (rr.length : ℚ) * (1/2) then
         some (.invalidValues
           (rr.filter (fun x => !(rrInRange cfg x))).length rr.length
           cfg.min_rr_value_ms cfg.max_rr_value_ms
           ((rr.filter (fun x => !(rrInRange cfg x))).take 5))
       else if (rr.filter (fun x => rrInRange cfg x)).length
           < cfg.min_rr_count then
         some (.insufficientValid rr.length
           (rr.filter (fun x => rrInRange cfg x)).length cfg.min_rr_count)
       else if e - s < (cfg.min_window_duration_s : ℚ) then
         some (.windowShort (e - s) cfg.min_window_duration_s)
       else if e - s > (cfg.max_window_duration_s : ℚ) then
         some (.windowLong (e - s) cfg.max_window_duration_s)
       else none) ∧
    ((validate cfg rr s e).is_valid = true ↔
      (validate cfg rr s e).error_code = none) ∧
    (validate cfg rr s e).cleaned_rr_intervals =
      (if (validate cfg rr s e).is_valid then
        some (rr.filter (fun x => rrInRange cfg x)) else none) ∧
    (validate cfg rr s e).window_duration_s =
      (if (validate cfg rr s e).is_valid then some (e - s) else none) := by
  by_cases h1 : rr.length < cfg.min_rr_count
  · simp [validate, validateCount, h1]
  · by_cases h2 : cfg.max_rr_count < rr.length
    · simp [validate, validateCount, h1, h2]
    · by_cases h3 : (rr.length : ℚ) * 2⁻¹
          < ((rr.filter (fun x => !(rrInRange cfg x))).length : ℚ)
      · simp [validate, validateCount, validateValues, h1, h2, h3]
      · by_cases h4 : (rr.filter (fun x => rrInRange cfg x)).length
            < cfg.min_rr_count
        · simp [validate, validateCount, validateValues, h1, h2, h3, h4]
        · by_cases h5 : e - s < (cfg.min_window_duration_s : ℚ)
          · simp [validate, validateCount, validateValues, validateWindow,
              h1, h2, h3, h4, h5]
          · by_cases h6 : (cfg.max_window_duration_s : ℚ) < e - s
            · simp [validate, validateCount, validateValues, validateWindow,
                h1, h2, h3, h4, h5, h6]
            · simp [validate, validateCount, validateValues, validateWindow,
                h1, h2, h3, h4, h5, h6]

/-- The minimum-interval check aside, the time-domain extractor's
numeric fields are the raw computed values: the post-hoc validity gate
only ever flips the flag. -/
theorem extractTimeDomain_fields (cfg : ExtractorConfig) (rr : List ℚ)
    (h : cfg.td_min_intervals ≤ rr.length) :
    (extractTimeDomain cfg rr).mean_rr = (timeDomainRaw rr).mean_rr ∧
    (extractTimeDomain cfg rr).sdnn = (timeDomainRaw rr).sdnn ∧
    (extractTimeDomain cfg rr).rmssd = (timeDomainRaw rr).rmssd ∧
    (extractTimeDomain cfg rr).pnn50 = (timeDomainRaw rr).pnn50 ∧
    (extractTimeDomain cfg rr).pnn20 = (timeDomainRaw rr).pnn20 ∧
    (extractTimeDomain cfg rr).mean_hr = (timeDomainRaw rr).mean_hr ∧
    (extractTimeDomain cfg rr).std_hr = (timeDomainRaw rr).std_hr ∧
    (extractTimeDomain cfg rr).cv_rr = (timeDomainRaw rr).cv_rr ∧
    (extractTimeDomain cfg rr).num_intervals = rr.length := by
  simp only [extractTimeDomain]
  rw [if_neg (by omega)]
  split <;> exact ⟨rfl, rfl, rfl, rfl, rfl, rfl, rfl, rfl, rfl⟩

/-- A nonempty list of equal values has its common value as mean. -/
theorem listMean_replicate (n : ℕ) (a : ℚ) (hn : 0 < n) :
    listMean (List.replicate n a) = a := by
  simp only [listMean, List.sum_replicate, List.length_replicate, nsmul_eq_mul]
  rw [mul_comm, mul_div_assoc,
    div_self (show ((n : ℕ) : ℚ) ≠ 0 by exact_mod_cast hn.ne'), mul_one]

/-- A list of equal values has zero sum of squared deviations. -/
theorem sqDeviations_replicate (n : ℕ) (a : ℚ) (hn : 0 < n) :
    ((List.replicate n a).map
      (fun x => (x - listMean (List.replicate n a)) ^ 2)).sum = 0 := by
  rw [List.map_replicate, listMean_replicate n a hn]
  simp

/-- Successive differences of a list of equal values are all zero. -/
theorem diffList_replicate (n : ℕ) (a : ℚ) :
    diffList (List.replicate n a) = List.replicate (n - 1) 0 := by
  cases n with
  | zero => rfl
  | succ m =>
    simp only [diffList, List.replicate_succ, List.tail_cons]
    rw [show (a :: List.replicate m a) = List.replicate (m + 1) a from rfl]
    rw [List.zipWith_replicate]
    simp

/-- Claim C6: for a sequence long enough for the time-domain extractor,
each of the eight fields is exactly the reference formula of the spec
(mean, sample standard deviations with divisor n-1, root mean square of
successive differences, strict pNNx percentages, heart rate 60000/rr,
and the coefficient of variation), and consequently an all-equal
sequence has sdnn = rmssd = pnn50 = pnn20 = 0. -/
theorem claim_time_domain_formulas (cfg : ExtractorConfig) (rr : List ℚ)
    (hn : cfg.td_min_intervals ≤ rr.length) (h0 : 0 < rr.length)
    (hpos : ∀ x ∈ rr, 0 < x) :
    (extractTimeDomain cfg rr).mean_rr
      = some ((rr.sum / (rr.length : ℚ) : ℚ) : ℝ) ∧
    (extractTimeDomain cfg rr).sdnn
      = some (Real.sqrt
          (((rr.map (fun x => (x - rr.sum / (rr.length : ℚ)) ^ 2)).sum
              / ((rr.length : ℚ) - 1) : ℚ) : ℝ)) ∧
    (extractTimeDomain cfg rr).rmssd
      = some (Real.sqrt
          ((((List.zipWith (fun a b => b - a) rr rr.tail).map
                (fun x => x ^ 2)).sum
              / ((List.zipWith (fun a b => b - a) rr rr.tail).length : ℚ)
            : ℚ) : ℝ)) ∧
    (extractTimeDomain cfg rr).pnn50
      = some ((((((List.zipWith (fun a b => b - a) rr rr.tail).filter
            (fun x => decide (50 < |x|))).length : ℚ)
          / ((List.zipWith (fun a b => b - a) rr rr.tail).length : ℚ) * 100
          : ℚ) : ℝ)) ∧
    (extractTimeDomain cfg rr).pnn20
      = some ((((((List.zipWith (fun a b => b - a) rr rr.tail).filter
            (fun x => decide (20 < |x|))).length : ℚ)
          / ((List.zipWith (fun a b => b - a) rr rr.tail).length : ℚ) * 100
          : ℚ) : ℝ)) ∧
    (extractTimeDomain cfg rr).mean_hr
      = some ((((rr.map (fun x => 60000 / x)).sum / (rr.length : ℚ) : ℚ) : ℝ)) ∧
    (extractTimeDomain cfg rr).std_hr
      = some (Real.sqrt
          ((((rr.map (fun x => 60000 / x)).map
                (fun x =>
                  (x - (rr.map (fun y => 60000 / y)).sum / (rr.length : ℚ))
                    ^ 2)).sum / ((rr.length : ℚ) - 1) : ℚ) : ℝ)) ∧
    (extractTimeDomain cfg rr).cv_rr
      = some (Real.sqrt
            (((rr.map (fun x => (x - rr.sum / (rr.length : ℚ)) ^ 2)).sum
                / ((rr.length : ℚ) - 1) : ℚ) : ℝ)
          / ((rr.sum / (rr.length : ℚ) : ℚ) : ℝ) * 100) ∧
    ((∀ x ∈ rr, ∀ y ∈ rr, x = y) →
      (extractTimeDomain cfg rr).sdnn = some 0 ∧
      (extractTimeDomain cfg rr).rmssd = some 0 ∧
      (extractTimeDomain cfg rr).pnn50 = some 0 ∧
      (extractTimeDomain cfg rr).pnn20 = some 0) := by
  obtain ⟨hf1, hf2, hf3, hf4, hf5, hf6, hf7, hf8, -⟩ :=
    extractTimeDomain_fields cfg rr hn
  have hne : rr ≠ [] := List.length_pos.mp h0
  have hmean : 0 < listMean rr := by
    unfold listMean
    exact div_pos (List.sum_pos rr hpos hne) (by exact_mod_cast h0)
  have hd : ∀ t : ℚ, pnnPercent rr t
      = ((((diffList rr).filter (fun x => decide (t < |x|))).length : ℚ)
          / ((diffList rr).length : ℚ) * 100 : ℚ) := by
    intro t
    simp only [pnnPercent]
    split
    · rfl
    · rename_i hlen
      have hz : (diffList rr).length = 0 := by omega
      rw [hz]
      simp
  refine ⟨?_, ?_, ?_, ?_, ?_, ?_, ?_, ?_, ?_⟩
  · rw [hf1]; rfl
  · rw [hf2]; rfl
  · rw [hf3]
    simp only [timeDomainRaw, listMean, diffList, List.length_map]
  · rw [hf4, show (timeDomainRaw rr).pnn50 = some ((pnnPercent rr 50 : ℚ) : ℝ)
        from rfl, hd 50]
    rfl
  · rw [hf5, show (timeDomainRaw rr).pnn20 = some ((pnnPercent rr 20 : ℚ) : ℝ)
        from rfl, hd 20]
    rfl
  · rw [hf6]
    simp only [timeDomainRaw, listMean, hrList, List.length_map]
  · rw [hf7]
    simp only [timeDomainRaw, sampleStd, sampleVar, listMean, hrList,
      List.length_map]
  · rw [hf8]
    show some (if 0 < listMean rr
        then sampleStd rr / ((listMean rr : ℚ) : ℝ) * 100 else 0) = _
    rw [if_pos hmean]
    rfl
  · intro hall
    obtain ⟨a, rest⟩ := List.exists_cons_of_ne_nil hne
    obtain ⟨l, hl⟩ := rest
    have hrep : rr = List.replicate rr.length a := by
      refine List.eq_replicate_of_mem (fun b hb => ?_)
      exact hall b hb a (by rw [hl]; exact List.mem_cons_self a l)
    have hμ : rr.sum / (rr.length : ℚ) = a := by
      conv_lhs => rw [hrep]
      rw [List.sum_replicate, List.length_replicate, nsmul_eq_mul, mul_comm,
        mul_div_assoc,
        div_self (show ((rr.length : ℕ) : ℚ) ≠ 0 by exact_mod_cast h0.ne'),
        mul_one]
    have hS : ((rr.map (fun x => (x - rr.sum / (rr.length : ℚ)) ^ 2)).sum : ℚ)
        = 0 := by
      rw [hμ]
      conv_lhs => rw [hrep]
      rw [List.map_replicate]
      simp
    have hdz : List.zipWith (fun a b => b - a) rr rr.tail
        = List.replicate (rr.length - 1) 0 := by
      rw [show List.zipWith (fun a b => b - a) rr rr.tail = diffList rr from
        rfl]
      conv_lhs => rw [hrep]
      exact diffList_replicate rr.length a
    refine ⟨?_, ?_, ?_, ?_⟩
    · rw [hf2]
      show some (sampleStd rr) = some 0
      unfold sampleStd sampleVar
      rw [show listMean rr = rr.sum / (rr.length : ℚ) from rfl, hS]
      simp
    · rw [hf3]
      show some (Real.sqrt
        ((listMean (((diffList rr)).map (fun d => d ^ 2)) : ℚ) : ℝ)) = some 0
      rw [show diffList rr = List.zipWith (fun a b => b - a) rr rr.tail from
        rfl, hdz]
      rw [List.map_replicate]
      unfold listMean
      simp
    · rw [hf4, show (timeDomainRaw rr).pnn50 = some ((pnnPercent rr 50 : ℚ) : ℝ)
          from rfl, hd 50]
      rw [show diffList rr = List.zipWith (fun a b => b - a) rr rr.tail from
        rfl, hdz]
      rw [List.filter_eq_nil_iff.mpr (fun x hx => by
        rw [List.eq_of_mem_replicate hx]
        simp)]
      simp
    · rw [hf5, show (timeDomainRaw rr).pnn20 = some ((pnnPercent rr 20 : ℚ) : ℝ)
          from rfl, hd 20]
      rw [show diffList rr = List.zipWith (fun a b => b - a) rr rr.tail from
        rfl, hdz]
      rw [List.filter_eq_nil_iff.mpr (fun x hx => by
        rw [List.eq_of_mem_replicate hx]
        simp)]
      simp

/-- Witness for C6 at the all-equal input of ten 800 ms intervals. -/
theorem claim_time_domain_formulas_witness :
    defaultExtractorConfig.td_min_intervals
      ≤ (List.replicate 10 (800 : ℚ)).length ∧
    0 < (List.replicate 10 (800 : ℚ)).length ∧
    (extractTimeDomain defaultExtractorConfig
      (List.replicate 10 (800 : ℚ))).sdnn = some 0 ∧
    (extractTimeDomain defaultExtractorConfig
      (List.replicate 10 (800 : ℚ))).rmssd = some 0 ∧
    (extractTimeDomain defaultExtractorConfig
      (List.replicate 10 (800 : ℚ))).pnn50 = some 0 ∧
    (extractTimeDomain defaultExtractorConfig
      (List.replicate 10 (800 : ℚ))).pnn20 = some 0 := by
  have hpos : ∀ x ∈ List.replicate 10 (800 : ℚ), 0 < x := by
    intro x hx
    rw [List.eq_of_mem_replicate hx]
    norm_num
  have h := claim_time_domain_formulas defaultExtractorConfig
    (List.replicate 10 800) (by decide) (by decide) hpos
  have hall : ∀ x ∈ List.replicate 10 (800 : ℚ),
      ∀ y ∈ List.replicate 10 (800 : ℚ), x = y := by
    intro x hx y hy
    rw [List.eq_of_mem_replicate hx, List.eq_of_mem_replicate hy]
  obtain ⟨h1, h2, h3, h4⟩ := h.2.2.2.2.2.2.2.2 hall
  exact ⟨by decide, by decide, h1, h2, h3, h4⟩

/-- Counterexample to claim C5 as stated: ten intervals of 4000 ms pass
the minimum-count check, the computed mean of 4000 ms fails the
physiological gate (mean_rr > 3000), so the time-domain result is
invalid — yet its mean_rr field holds the finite computed value 4000,
not the not-a-number sentinel. -/
theorem claim_invalid_nan_counterexample :
    (extractTimeDomain defaultExtractorConfig
      (List.replicate 10 (4000 : ℚ))).is_valid = false ∧
    (extractTimeDomain defaultExtractorConfig
      (List.replicate 10 (4000 : ℚ))).mean_rr = some ((4000 : ℚ) : ℝ) ∧
    some ((4000 : ℚ) : ℝ) ≠ (none : Option ℝ) := by
  have hmean : listMean (List.replicate 10 (4000 : ℚ)) = 4000 :=
    listMean_replicate 10 4000 (by norm_num)
  have hnv : ¬ validTimeDomain (timeDomainRaw (List.replicate 10 (4000 : ℚ))) := by
    intro hv
    obtain ⟨-, h2, -⟩ := hv
    apply h2
    refine Or.inr ?_
    rw [show getR (timeDomainRaw (List.replicate 10 (4000 : ℚ))).mean_rr
        = ((listMean (List.replicate 10 (4000 : ℚ)) : ℚ) : ℝ) from rfl, hmean]
    norm_num
  have hext : extractTimeDomain defaultExtractorConfig
      (List.replicate 10 (4000 : ℚ))
      = { timeDomainRaw (List.replicate 10 (4000 : ℚ)) with is_valid := false } := by
    simp only [extractTimeDomain]
    rw [if_neg (by decide), if_neg hnv]
  refine ⟨by rw [hext], ?_, by simp⟩
  rw [hext]
  show some ((listMean (List.replicate 10 (4000 : ℚ)) : ℚ) : ℝ) = _
  rw [hmean]

/-- Claim C5 amended: all numeric fields are the not-a-number sentinel
when a domain extractor rejects the input before computing (fewer
intervals than the domain minimum); in particular any input shorter than
`fd_min_intervals` yields six NaN frequency-domain fields with a false
validity flag.  (When the post-hoc validity gate rejects computed
features, the finite computed values are kept and only the flag flips.) -/
theorem claim_invalid_nan_amended (cfg : ExtractorConfig)
    (welch : List ℚ → List ℚ × List ℚ) (interp : List ℚ → List ℚ → ℚ → ℚ)
    (rr : List ℚ) :
    (rr.length < cfg.td_min_intervals →
      (extractTimeDomain cfg rr).is_valid = false ∧
      tdToArray (extractTimeDomain cfg rr) = List.replicate 8 none) ∧
    (rr.length < cfg.fd_min_intervals →
      (extractFrequencyDomain cfg welch interp rr).is_valid = false ∧
      fdToArray (extractFrequencyDomain cfg welch interp rr)
        = List.replicate 6 none) ∧
    (rr.length < cfg.nl_min_intervals →
      (extractNonlinear cfg rr).is_valid = false ∧
      (extractNonlinear cfg rr).sample_entropy = none) := by
  refine ⟨fun h => ?_, fun h => ?_, fun h => ?_⟩
  · simp only [extractTimeDomain]
    rw [if_pos h]
    exact ⟨rfl, rfl⟩
  · simp only [extractFrequencyDomain]
    rw [if_pos h]
    exact ⟨rfl, rfl⟩
  · simp only [extractNonlinear]
    rw [if_pos h]
    exact ⟨rfl, rfl⟩

/-- Claim C8: band powers are trapezoidal integrals of the PSD bins
selected by the inclusive LF `[0.04, 0.15]` and HF `[0.15, 0.40]` bands
(an empty selection integrates to exactly 0), and the derived fields are
`total = lf + hf`, `ratio = lf/hf` (NaN when `hf = 0`), and the
normalized units `lf/total*100`, `hf/total*100` (NaN when `total = 0`);
the frequency-domain extractor applies exactly this derivation to the
Welch output once the input is long enough and the resampled series has
at least 10 samples. -/
theorem claim_frequency_derivation (cfg : ExtractorConfig)
    (welch : List ℚ → List ℚ × List ℚ) (interp : List ℚ → List ℚ → ℚ → ℚ)
    (rr freqs psd : List ℚ) (n : ℕ) :
    LF_BAND = (4/100, 15/100) ∧
    HF_BAND = (15/100, 40/100) ∧
    (∀ band : ℚ × ℚ, bandPower freqs psd band =
      (List.zipWith (fun p q => (q.1 - p.1) * (p.2 + q.2) / 2)
        ((freqs.zip psd).filter
          (fun p => decide (band.1 ≤ p.1 ∧ p.1 ≤ band.2)))
        ((freqs.zip psd).filter
          (fun p => decide (band.1 ≤ p.1 ∧ p.1 ≤ band.2))).tail).sum) ∧
    (∀ band : ℚ × ℚ,
      (freqs.zip psd).filter (fun p => decide (band.1 ≤ p.1 ∧ p.1 ≤ band.2)) = []
        → bandPower freqs psd band = 0) ∧
    (fdFromPsd freqs psd n).lf_power
      = some ((bandPower freqs psd LF_BAND : ℚ) : ℝ) ∧
    (fdFromPsd freqs psd n).hf_power
      = some ((bandPower freqs psd HF_BAND : ℚ) : ℝ) ∧
    (fdFromPsd freqs psd n).total_power
      = some ((bandPower freqs psd LF_BAND + bandPower freqs psd HF_BAND
          : ℚ) : ℝ) ∧
    (bandPower freqs psd HF_BAND = 0 →
      (fdFromPsd freqs psd n).lf_hf_quot = none) ∧
    (0 < bandPower freqs psd HF_BAND →
      (fdFromPsd freqs psd n).lf_hf_quot
        = some (((bandPower freqs psd LF_BAND : ℚ) : ℝ)
            / ((bandPower freqs psd HF_BAND : ℚ) : ℝ))) ∧
    (bandPower freqs psd LF_BAND + bandPower freqs psd HF_BAND = 0 →
      (fdFromPsd freqs psd n).lf_nu = none ∧
      (fdFromPsd freqs psd n).hf_nu = none) ∧
    (0 < bandPower freqs psd LF_BAND + bandPower freqs psd HF_BAND →
      (fdFromPsd freqs psd n).lf_nu
        = some (((bandPower freqs psd LF_BAND : ℚ) : ℝ)
            / ((bandPower freqs psd LF_BAND + bandPower freqs psd HF_BAND
                : ℚ) : ℝ) * 100) ∧
      (fdFromPsd freqs psd n).hf_nu
        = some (((bandPower freqs psd HF_BAND : ℚ) : ℝ)
            / ((bandPower freqs psd LF_BAND + bandPower freqs psd HF_BAND
                : ℚ) : ℝ) * 100)) ∧
    (cfg.fd_min_intervals ≤ rr.length →
      10 ≤ ((interpolateRR cfg interp rr (timeAxis rr)).1).length →
      extractFrequencyDomain cfg welch interp rr
        = fdFromPsd
            (welch ((interpolateRR cfg interp rr (timeAxis rr)).1)).1
            (welch ((interpolateRR cfg interp rr (timeAxis rr)).1)).2
            rr.length) := by
  have hband : ∀ band : ℚ × ℚ, bandPower freqs psd band =
      (List.zipWith (fun p q => (q.1 - p.1) * (p.2 + q.2) / 2)
        ((freqs.zip psd).filter
          (fun p => decide (band.1 ≤ p.1 ∧ p.1 ≤ band.2)))
        ((freqs.zip psd).filter
          (fun p => decide (band.1 ≤ p.1 ∧ p.1 ≤ band.2))).tail).sum := by
    intro band
    simp only [bandPower, trapzPairs]
    split
    · rename_i hsel
      rw [List.isEmpty_iff.mp hsel]
      rfl
    · rfl
  refine ⟨rfl, rfl, hband, fun band h => ?_, ?_, ?_, ?_, fun h0 => ?_,
    fun hpos => ?_, fun h0 => ?_, fun hpos => ?_, fun hlen hri => ?_⟩
  · rw [hband band, h]
    rfl
  · simp only [fdFromPsd]
    split <;> rfl
  · simp only [fdFromPsd]
    split <;> rfl
  · simp only [fdFromPsd]
    split <;> rfl
  · simp only [fdFromPsd]
    have : ¬ (0 < bandPower freqs psd HF_BAND) := by rw [h0]; norm_num
    split <;> simp [this]
  · simp only [fdFromPsd]
    split <;> simp [hpos]
  · simp only [fdFromPsd]
    have : ¬ (0 < bandPower freqs psd LF_BAND + bandPower freqs psd HF_BAND) := by
      rw [h0]; norm_num
    constructor <;> (split <;> simp [this])
  · simp only [fdFromPsd]
    constructor <;> (split <;> simp [hpos])
  · simp only [extractFrequencyDomain]
    rw [if_neg (by omega), if_neg (by omega)]

/-- `scanl` of addition lists the running partial sums. -/
theorem scanl_add_eq (l : List ℚ) (a : ℚ) :
    l.scanl (fun x y => x + y) a
      = (List.range (l.length + 1)).map (fun k => a + (l.take k).sum) := by
  induction l generalizing a with
  | nil => simp
  | cons x xs ih =>
    rw [List.scanl_cons, ih (a + x)]
    conv_rhs => rw [show (x :: xs).length + 1 = xs.length + 1 + 1 from by simp,
      List.range_succ_eq_map]
    simp only [List.map_cons, List.map_map, List.take_zero, List.sum_nil,
      add_zero, List.singleton_append]
    congr 1
    ext k
    simp [List.take_cons, add_assoc]

/-- The time axis holds, for each beat index, the sum of the preceding
intervals in seconds. -/
theorem timeAxis_eq (rr : List ℚ) :
    timeAxis rr
      = (List.range rr.length).map (fun k => (rr.take k).sum / 1000) := by
  have h1 : (cumsum rr).map (fun x => x / 1000)
      = (List.range rr.length).map (fun k => (rr.take (k+1)).sum / 1000) := by
    simp only [cumsum, scanl_add_eq, List.range_succ_eq_map, List.map_cons,
      List.tail_cons, List.map_map]
    congr 1
    ext k
    simp
  have h2 : (0:ℚ) :: (List.range rr.length).map
        (fun k => (rr.take (k+1)).sum / 1000)
      = (List.range (rr.length + 1)).map (fun k => (rr.take k).sum / 1000) := by
    rw [List.range_succ_eq_map]
    simp [List.map_map, Function.comp]
  rw [timeAxis, h1, h2, List.range_succ, List.map_append]
  simp

/-- The time-axis recurrence `t[i+1] = t[i] + rr[i] / 1000`. -/
theorem timeAxis_getD_succ (rr : List ℚ) (i : ℕ) (hi : i + 1 < rr.length) :
    (timeAxis rr).getD (i+1) 0
      = (timeAxis rr).getD i 0 + rr.getD i 0 / 1000 := by
  rw [timeAxis_eq, List.getD_eq_getElem?_getD, List.getD_eq_getElem?_getD]
  simp only [List.getElem?_map, List.getElem?_range hi,
    List.getElem?_range (by omega : i < rr.length), Option.map_some',
    Option.getD_some]
  rw [List.sum_take_succ rr i (by omega)]
  rw [List.getD_eq_getElem rr 0 (by omega : i < rr.length)]
  simp [add_div]

/-- The last time-axis entry: the sum of all but the last interval. -/
theorem timeAxis_getLastD (rr : List ℚ) :
    (timeAxis rr).getLastD 0 = (rr.take (rr.length - 1)).sum / 1000 := by
  rcases rr.eq_nil_or_concat with h | ⟨l, a, h⟩
  · subst h
    simp [timeAxis, cumsum, List.scanl]
  · have hlen : rr.length = l.length + 1 := by rw [h]; simp
    rw [timeAxis_eq, hlen, List.range_succ, List.map_append]
    simp only [List.map_cons, List.map_nil]
    rw [List.getLastD_concat]
    simp

/-- Entries of `np.linspace` for two or more points. -/
theorem linspace_getD (a b : ℚ) (n k : ℕ) (h2 : 2 ≤ n) (hk : k < n) :
    (linspace a b n).getD k 0 = a + (b - a) * k / ((n : ℚ) - 1) := by
  simp only [linspace]
  rw [if_neg (by omega), if_neg (by omega), List.getD_eq_getElem?_getD]
  simp only [List.getElem?_map, List.getElem?_range hk, Option.map_some',
    Option.getD_some]

/-- Counterexample to claim C9 as stated: for 21 intervals of 1000 ms
(length 21 ≥ fd_min_intervals = 20) the duration is 20 s and the grid is
`np.linspace(0, 20, 80)`, whose point at index 1 is 20/79 s — not the
1/4 s step of a 4 Hz sampling — and which contains the right endpoint
20 itself, so the grid does not lie in the half-open span [0, 20). -/
theorem claim_fd_grid_counterexample :
    defaultExtractorConfig.fd_min_intervals
      ≤ (List.replicate 21 (1000 : ℚ)).length ∧
    (timeAxis (List.replicate 21 (1000 : ℚ))).getLastD 0 = 20 ∧
    (20 : ℚ) ∈ (interpolateRR defaultExtractorConfig (fun _ _ q => q)
        (List.replicate 21 (1000 : ℚ))
        (timeAxis (List.replicate 21 (1000 : ℚ)))).2 ∧
    ¬((20 : ℚ) < (timeAxis (List.replicate 21 (1000 : ℚ))).getLastD 0) ∧
    ((interpolateRR defaultExtractorConfig (fun _ _ q => q)
        (List.replicate 21 (1000 : ℚ))
        (timeAxis (List.replicate 21 (1000 : ℚ)))).2).getD 1 0 = 20/79 ∧
    (20/79 : ℚ) ≠ 1/4 := by
  have hdur : (timeAxis (List.replicate 21 (1000 : ℚ))).getLastD 0 = 20 := by
    rw [timeAxis_getLastD]
    rw [List.length_replicate, List.take_replicate, List.sum_replicate]
    norm_num
  have hn : (pyInt ((timeAxis (List.replicate 21 (1000 : ℚ))).getLastD 0
      * defaultExtractorConfig.fd_resample_rate)).toNat = 80 := by
    rw [hdur, show defaultExtractorConfig.fd_resample_rate = 4 from rfl,
      show pyInt ((20 : ℚ) * 4) = 80 from by norm_num [pyInt]]
    rfl
  have hgrid : (interpolateRR defaultExtractorConfig (fun _ _ q => q)
      (List.replicate 21 (1000 : ℚ))
      (timeAxis (List.replicate 21 (1000 : ℚ)))).2
      = linspace 0 ((timeAxis (List.replicate 21 (1000 : ℚ))).getLastD 0) 80 := by
    simp only [interpolateRR]
    rw [hn]
  refine ⟨by decide, hdur, ?_, by rw [hdur]; norm_num, ?_, by norm_num⟩
  · rw [hgrid, hdur]
    rw [show linspace 0 20 80 = (List.range 80).map
        (fun k : ℕ => 0 + ((20 : ℚ) - 0) * (k : ℚ) / (((80 : ℕ) : ℚ) - 1))
        from by
      simp only [linspace]
      rw [if_neg (show ¬(80 = 0) by omega), if_neg (show ¬(80 = 1) by omega)]]
    refine List.mem_map.mpr ⟨79, List.mem_range.mpr (by norm_num), ?_⟩
    norm_num
  · rw [hgrid, hdur, linspace_getD 0 20 80 1 (by omega) (by omega)]
    norm_num

/-- Claim C9 amended: the extractor builds the cumulative time axis
`t[0] = 0`, `t[i] = t[i-1] + rr[i-1]/1000`, whose last entry (duration)
is the sum of all but the last interval; the uniform grid is
`np.linspace(0, duration, int(duration * fd_resample_rate))` — that is,
`int(duration * rate)` evenly spaced points spanning the closed interval
`[0, duration]` with step `duration/(n_samples - 1)`, not an exact
1/rate step over a half-open span; the resampled series applies the
(abstracted) cubic interpolant to each grid point; and a grid of fewer
than 10 samples makes the domain invalid with all fields NaN. -/
theorem claim_fd_resampling_amended (cfg : ExtractorConfig)
    (welch : List ℚ → List ℚ × List ℚ) (interp : List ℚ → List ℚ → ℚ → ℚ)
    (rr : List ℚ) :
    (timeAxis rr).length = rr.length ∧
    (timeAxis rr).getD 0 0 = 0 ∧
    (∀ i, i + 1 < rr.length →
      (timeAxis rr).getD (i+1) 0
        = (timeAxis rr).getD i 0 + rr.getD i 0 / 1000) ∧
    (timeAxis rr).getLastD 0 = (rr.take (rr.length - 1)).sum / 1000 ∧
    (interpolateRR cfg interp rr (timeAxis rr)).2
      = linspace 0 ((timeAxis rr).getLastD 0)
          ((pyInt ((timeAxis rr).getLastD 0 * cfg.fd_resample_rate)).toNat) ∧
    (∀ n k : ℕ, 2 ≤ n → k < n →
      (linspace 0 ((timeAxis rr).getLastD 0) n).getD k 0
        = (timeAxis rr).getLastD 0 * k / ((n : ℚ) - 1)) ∧
    (interpolateRR cfg interp rr (timeAxis rr)).1
      = ((interpolateRR cfg interp rr (timeAxis rr)).2).map
          (interp (timeAxis rr) rr) ∧
    (cfg.fd_min_intervals ≤ rr.length →
      ((interpolateRR cfg interp rr (timeAxis rr)).1).length < 10 →
      extractFrequencyDomain cfg welch interp rr
        = invalidFrequencyDomain rr.length) := by
  refine ⟨?_, ?_, timeAxis_getD_succ rr, timeAxis_getLastD rr, rfl, ?_, rfl,
    fun h1 h2 => ?_⟩
  · rw [timeAxis_eq]
    simp
  · rw [timeAxis_eq]
    rcases Nat.eq_zero_or_pos rr.length with h | h
    · rw [h]
      rfl
    · rw [List.getD_eq_getElem?_getD]
      simp [List.getElem?_map, List.getElem?_range h]
  · intro n k h2 hk
    rw [linspace_getD _ _ n k h2 hk]
    rw [zero_add, sub_zero]
  · simp only [extractFrequencyDomain]
    rw [if_neg (by omega), if_pos h2]

/-- Unfolding the Chebyshev distance one coordinate at a time. -/
theorem chebDist_cons (x y : ℚ) (t u : List ℚ) :
    chebDist (x :: t) (y :: u) = max |x - y| (chebDist t u) := rfl

/-- The Chebyshev distance is symmetric. -/
theorem chebDist_symm (t u : List ℚ) : chebDist t u = chebDist u t := by
  induction t generalizing u with
  | nil => cases u <;> rfl
  | cons x xs ih =>
    cases u with
    | nil => rfl
    | cons y ys => rw [chebDist_cons, chebDist_cons, abs_sub_comm, ih ys]

/-- A template is at Chebyshev distance zero from itself. -/
theorem chebDist_self (t : List ℚ) : chebDist t t = 0 := by
  induction t with
  | nil => rfl
  | cons x xs ih => rw [chebDist_cons, ih, sub_self, abs_zero, max_self]

/-- On templates of equal length whose coordinates come in pairs that
are either equal or at least `D` apart, a tolerance below `D` accepts a
pair exactly when the templates are identical. -/
theorem chebDist_le_iff_eq (r : ℝ) (D : ℚ) (hr0 : 0 ≤ r) (hrD : r < (D : ℝ)) :
    ∀ t u : List ℚ, t.length = u.length →
      (∀ x ∈ t, ∀ y ∈ u, x = y ∨ D ≤ |x - y|) →
      (((chebDist t u : ℚ) : ℝ) ≤ r ↔ t = u) := by
  intro t
  induction t with
  | nil =>
    intro u hl _
    cases u with
    | nil =>
      constructor
      · intro _; rfl
      · intro _
        show ((chebDist [] [] : ℚ) : ℝ) ≤ r
        rw [show chebDist [] [] = 0 from rfl]
        exact_mod_cast hr0
    | cons y ys => simp at hl
  | cons x xs ih =>
    intro u hl hsep
    cases u with
    | nil => simp at hl
    | cons y ys =>
      rw [chebDist_cons]
      have ihy := ih ys (by simpa using hl)
        (fun a ha b hb => hsep a (List.mem_cons_of_mem _ ha) b
          (List.mem_cons_of_mem _ hb))
      constructor
      · intro h
        rw [show ((max |x - y| (chebDist xs ys) : ℚ) : ℝ)
            = max ((|x - y| : ℚ) : ℝ) ((chebDist xs ys : ℚ) : ℝ) from by
          push_cast
          rfl] at h
        have h1 : ((|x - y| : ℚ) : ℝ) ≤ r := le_trans (le_max_left _ _) h
        have h2 : ((chebDist xs ys : ℚ) : ℝ) ≤ r := le_trans (le_max_right _ _) h
        have hxy : x = y := by
          rcases hsep x (List.mem_cons_self x xs) y (List.mem_cons_self y ys)
            with h' | h'
          · exact h'
          · exfalso
            have hD : (D : ℝ) ≤ ((|x - y| : ℚ) : ℝ) := by exact_mod_cast h'
            linarith
        rw [hxy, ihy.mp h2]
      · intro h
        cases h
        rw [chebDist_self, sub_self, abs_zero, max_self]
        exact_mod_cast hr0

/-- Under the acceptance-iff-equality hypothesis the source's unordered
match counter agrees with the decidable equality-based counter. -/
theorem pairCountLe_eq_pairCountEqT (r : ℝ) (ts : List (List ℚ))
    (h : ∀ t ∈ ts, ∀ u ∈ ts, (((chebDist t u : ℚ) : ℝ) ≤ r ↔ t = u)) :
    pairCountLe r ts = pairCountEqT ts := by
  induction ts with
  | nil => rfl
  | cons t rest ih =>
    rw [pairCountLe, pairCountEqT]
    rw [List.filter_congr (fun u hu => decide_eq_decide.mpr
      (h t (List.mem_cons_self t rest) u (List.mem_cons_of_mem _ hu)))]
    rw [ih (fun a ha b hb =>
      h a (List.mem_cons_of_mem _ ha) b (List.mem_cons_of_mem _ hb))]

/-- Same for the ordered counter. -/
theorem orderedCountLe_eq_orderedCountEqT (r : ℝ) (ts : List (List ℚ))
    (h : ∀ t ∈ ts, ∀ u ∈ ts, (((chebDist t u : ℚ) : ℝ) ≤ r ↔ t = u)) :
    orderedCountLe r ts = orderedCountEqT ts := by
  induction ts with
  | nil => rfl
  | cons t rest ih =>
    rw [orderedCountLe, orderedCountEqT]
    rw [List.filter_congr (fun u hu => decide_eq_decide.mpr
      (h t (List.mem_cons_self t rest) u (List.mem_cons_of_mem _ hu)))]
    rw [List.filter_congr (fun u hu => decide_eq_decide.mpr
      (h u (List.mem_cons_of_mem _ hu) t (List.mem_cons_self t rest)))]
    rw [ih (fun a ha b hb =>
      h a (List.mem_cons_of_mem _ ha) b (List.mem_cons_of_mem _ hb))]

/-- The ordered counter counts every unordered pair exactly twice. -/
theorem orderedCountLe_eq_two_mul (r : ℝ) (ts : List (List ℚ)) :
    orderedCountLe r ts = 2 * pairCountLe r ts := by
  induction ts with
  | nil => rfl
  | cons t rest ih =>
    have hswap : rest.filter (fun u => decide (((chebDist u t : ℚ) : ℝ) ≤ r))
        = rest.filter (fun u => decide (((chebDist t u : ℚ) : ℝ) ≤ r)) := by
      apply List.filter_congr
      intro u _
      exact decide_eq_decide.mpr (by rw [chebDist_symm u t])
    rw [orderedCountLe, pairCountLe, hswap, ih]
    ring

/-- Source templates at offsets `0 ≤ i < N - m` have length `m` and draw
their coordinates from the signal. -/
theorem templatesOf_mem (s : List ℚ) (m : ℕ) (t : List ℚ)
    (ht : t ∈ templatesOf s m) : t.length = m ∧ ∀ x ∈ t, x ∈ s := by
  obtain ⟨i, hi, rfl⟩ := List.mem_map.mp ht
  have hilt : i < s.length - m := List.mem_range.mp hi
  constructor
  · rw [List.length_take, List.length_drop]
    omega
  · intro x hx
    exact List.mem_of_mem_drop (List.mem_of_mem_take hx)

/-- Spec-model templates at offsets `0 ≤ i ≤ N - m` (with `m ≤ N`) have
length `m` and draw their coordinates from the signal. -/
theorem refTemplatesOf_mem (s : List ℚ) (m : ℕ) (hm : m ≤ s.length)
    (t : List ℚ) (ht : t ∈ refTemplatesOf s m) :
    t.length = m ∧ ∀ x ∈ t, x ∈ s := by
  obtain ⟨i, hi, rfl⟩ := List.mem_map.mp ht
  have hilt : i < s.length - m + 1 := List.mem_range.mp hi
  constructor
  · rw [List.length_take, List.length_drop]
    omega
  · intro x hx
    exact List.mem_of_mem_drop (List.mem_of_mem_take hx)

/-- Lifting value-level separation of a signal to the
acceptance-iff-equality property of its templates. -/
theorem sep_lift (s : List ℚ) (D : ℚ) (r : ℝ) (hr0 : 0 ≤ r)
    (hrD : r < (D : ℝ))
    (hsep : ∀ x ∈ s, ∀ y ∈ s, x = y ∨ D ≤ |x - y|)
    (ts : List (List ℚ)) (m : ℕ)
    (hts : ∀ t ∈ ts, t.length = m ∧ ∀ x ∈ t, x ∈ s) :
    ∀ t ∈ ts, ∀ u ∈ ts, (((chebDist t u : ℚ) : ℝ) ≤ r ↔ t = u) := by
  intro t ht u hu
  obtain ⟨hlt, hxt⟩ := hts t ht
  obtain ⟨hlu, hxu⟩ := hts u hu
  exact chebDist_le_iff_eq r D hr0 hrD t u (hlt.trans hlu.symm)
    (fun a ha b hb => hsep a (hxt a ha) b (hxu b hb))

/-- Doubling numerator and denominator leaves `-ln(A/B)` unchanged. -/
theorem neg_log_two_mul_div (a b : ℕ) :
    -Real.log (((2 * a : ℕ) : ℝ) / ((2 * b : ℕ) : ℝ))
      = -Real.log ((a : ℝ) / (b : ℝ)) := by
  push_cast
  rw [mul_div_mul_left _ _ (two_ne_zero)]

/-- The source estimator equals the amended reference: ordered-pair
counts double both A and B, and the factor cancels inside the
logarithm; the zero tests and the `r = 0` branch coincide. -/
theorem sampleEntropyFn_eq_amendedRef (cfg : ExtractorConfig) (s : List ℚ) :
    sampleEntropyFn cfg s = sampleEntropyAmendedRef cfg s := by
  unfold sampleEntropyFn sampleEntropyAmendedRef countMatches
  by_cases hr : ((cfg.nl_r_factor : ℝ) * sampleStd s) = 0
  · rw [if_pos hr, if_pos hr]
  · rw [if_neg hr, if_neg hr,
      orderedCountLe_eq_two_mul _ (templatesOf s cfg.nl_m),
      orderedCountLe_eq_two_mul _ (templatesOf s (cfg.nl_m + 1))]
    dsimp only
    by_cases hz : pairCountLe ((cfg.nl_r_factor : ℝ) * sampleStd s)
          (templatesOf s (cfg.nl_m + 1)) = 0
        ∨ pairCountLe ((cfg.nl_r_factor : ℝ) * sampleStd s)
          (templatesOf s cfg.nl_m) = 0
    · rw [if_pos hz, if_pos (show
        2 * pairCountLe ((cfg.nl_r_factor : ℝ) * sampleStd s)
            (templatesOf s (cfg.nl_m + 1)) = 0
          ∨ 2 * pairCountLe ((cfg.nl_r_factor : ℝ) * sampleStd s)
            (templatesOf s cfg.nl_m) = 0 from by
        rcases hz with h | h
        exacts [Or.inl (by omega), Or.inr (by omega)])]
    · rw [if_neg hz, if_neg (show
        ¬(2 * pairCountLe ((cfg.nl_r_factor : ℝ) * sampleStd s)
            (templatesOf s (cfg.nl_m + 1)) = 0
          ∨ 2 * pairCountLe ((cfg.nl_r_factor : ℝ) * sampleStd s)
            (templatesOf s cfg.nl_m) = 0) from by
        intro hc
        rcases hc with h | h
        exacts [hz (Or.inl (by omega)), hz (Or.inr (by omega))])]
      exact (congrArg some (neg_log_two_mul_div _ _)).symm

/-- Claim C7 amended: for every input long enough for the nonlinear
extractor, its sample entropy equals the reference definition with
tolerance `r = r_factor * sample_std`, the exact `r = 0 ↦ 0` special
case, ordered pairs of distinct templates at Chebyshev distance `≤ r`,
the zero-count NaN sentinel, and `-ln(A/B)` — with templates of length
`m` taken at offsets `0 ≤ i < N - m` and of length `m+1` at offsets
`0 ≤ i < N - m - 1` (the last fitting offset is excluded at each
length); and the domain is valid exactly when that value is a
nonnegative finite number. -/
theorem claim_sample_entropy_amended (cfg : ExtractorConfig) (rr : List ℚ)
    (h : cfg.nl_min_intervals ≤ rr.length) :
    (extractNonlinear cfg rr).sample_entropy
      = sampleEntropyAmendedRef cfg rr ∧
    ((extractNonlinear cfg rr).is_valid = true ↔
      ∃ v, sampleEntropyAmendedRef cfg rr = some v ∧ 0 ≤ v) := by
  have hfield : (extractNonlinear cfg rr).sample_entropy
        = sampleEntropyFn cfg rr ∧
      ((extractNonlinear cfg rr).is_valid = true ↔
        validNonlinear ⟨sampleEntropyFn cfg rr, rr.length, true⟩) := by
    simp only [extractNonlinear]
    rw [if_neg (by omega)]
    split
    · rename_i hv
      exact ⟨rfl, by simp [hv]⟩
    · rename_i hv
      exact ⟨rfl, by simp [hv]⟩
  refine ⟨by rw [hfield.1, sampleEntropyFn_eq_amendedRef], ?_⟩
  rw [hfield.2]
  unfold validNonlinear
  rw [show (⟨sampleEntropyFn cfg rr, rr.length, true⟩ :
      NonlinearFeatures).sample_entropy = sampleEntropyFn cfg rr from rfl,
    sampleEntropyFn_eq_amendedRef]

/-- Witness for the amended C7 at thirty 800 ms intervals. -/
theorem claim_sample_entropy_amended_witness :
    defaultExtractorConfig.nl_min_intervals
      ≤ (List.replicate 30 (800 : ℚ)).length ∧
    (extractNonlinear defaultExtractorConfig
        (List.replicate 30 (800 : ℚ))).sample_entropy
      = sampleEntropyAmendedRef defaultExtractorConfig
          (List.replicate 30 (800 : ℚ)) :=
  ⟨by decide, (claim_sample_entropy_amended defaultExtractorConfig
    (List.replicate 30 (800 : ℚ)) (by decide)).1⟩

/-- Counterexample to claim C7 as stated: on the 30-interval probe the
source extractor finds no length-3 template match among its offsets
0..26 (`A = 0`) and returns the NaN sentinel with an invalid domain,
while the claim's reference — templates at every fitting offset — pairs
the length-3 template at offset 27 with its repeat at offset 10, gets
`A > 0` and `B > 0`, and returns a defined entropy value. -/
theorem claim_sample_entropy_counterexample :
    defaultExtractorConfig.nl_min_intervals ≤ sampEnProbe.length ∧
    (extractNonlinear defaultExtractorConfig sampEnProbe).sample_entropy
      = none ∧
    (extractNonlinear defaultExtractorConfig sampEnProbe).is_valid = false ∧
    specSampleEntropyRef defaultExtractorConfig sampEnProbe ≠ none := by
  have hsum : sampEnProbe.sum = 31200 := by norm_num [sampEnProbe]
  have hμ : listMean sampEnProbe = 1040 := by
    rw [listMean, hsum, show sampEnProbe.length = 30 from rfl]
    norm_num
  have hS : (sampEnProbe.map
      (fun x => (x - listMean sampEnProbe) ^ 2)).sum = 5292000 := by
    rw [hμ]
    norm_num [sampEnProbe]
  have hvar : sampleVar sampEnProbe = 5292000 / 29 := by
    rw [sampleVar, hS, show sampEnProbe.length = 30 from rfl]
    norm_num
  have hstd0 : 0 < sampleStd sampEnProbe := by
    rw [sampleStd, hvar]
    refine Real.sqrt_pos.mpr ?_
    exact_mod_cast (by norm_num : (0:ℚ) < 5292000 / 29)
  have hstdlt : sampleStd sampEnProbe < 1500 := by
    rw [sampleStd, hvar]
    refine (Real.sqrt_lt' (by norm_num)).mpr ?_
    exact_mod_cast (by norm_num : (5292000 / 29 : ℚ) < 1500 ^ 2)
  have hfac : ((defaultExtractorConfig.nl_r_factor : ℚ) : ℝ) = 1/5 := by
    rw [show (defaultExtractorConfig.nl_r_factor : ℚ) = 1/5 from rfl]
    push_cast
    norm_num
  have hr0 : (0:ℝ) ≤ (defaultExtractorConfig.nl_r_factor : ℝ)
      * sampleStd sampEnProbe := by
    rw [hfac]
    exact mul_nonneg (by norm_num) (le_of_lt hstd0)
  have hrpos : (0:ℝ) < (defaultExtractorConfig.nl_r_factor : ℝ)
      * sampleStd sampEnProbe := by
    rw [hfac]
    exact mul_pos (by norm_num) hstd0
  have hrD : (defaultExtractorConfig.nl_r_factor : ℝ) * sampleStd sampEnProbe
      < ((300 : ℚ) : ℝ) := by
    rw [hfac]
    push_cast
    linarith
  have hsep5 : ∀ x ∈ ([500, 800, 1100, 1400, 1700] : List ℚ),
      ∀ y ∈ ([500, 800, 1100, 1400, 1700] : List ℚ),
      x = y ∨ (300:ℚ) ≤ |x - y| := by
    intro x hx y hy
    fin_cases hx <;> fin_cases hy <;> norm_num
  have hmem : ∀ x ∈ sampEnProbe,
      x ∈ ([500, 800, 1100, 1400, 1700] : List ℚ) := by decide
  have hsepv : ∀ x ∈ sampEnProbe, ∀ y ∈ sampEnProbe,
      x = y ∨ (300:ℚ) ≤ |x - y| :=
    fun x hx y hy => hsep5 x (hmem x hx) y (hmem y hy)
  have hiff3 := sep_lift sampEnProbe 300 _ hr0 hrD hsepv
    (templatesOf sampEnProbe 3) 3 (fun t ht => templatesOf_mem _ _ t ht)
  have hiffR3 := sep_lift sampEnProbe 300 _ hr0 hrD hsepv
    (refTemplatesOf sampEnProbe 3) 3
    (fun t ht => refTemplatesOf_mem _ _ (by decide) t ht)
  have hiffR2 := sep_lift sampEnProbe 300 _ hr0 hrD hsepv
    (refTemplatesOf sampEnProbe 2) 2
    (fun t ht => refTemplatesOf_mem _ _ (by decide) t ht)
  have hA : countMatches sampEnProbe 3
      ((defaultExtractorConfig.nl_r_factor : ℝ) * sampleStd sampEnProbe)
      = 0 := by
    rw [countMatches, pairCountLe_eq_pairCountEqT _ _ hiff3]
    decide
  have hAr : orderedCountLe
      ((defaultExtractorConfig.nl_r_factor : ℝ) * sampleStd sampEnProbe)
      (refTemplatesOf sampEnProbe 3) = 2 := by
    rw [orderedCountLe_eq_orderedCountEqT _ _ hiffR3]
    decide
  have hBr : orderedCountLe
      ((defaultExtractorConfig.nl_r_factor : ℝ) * sampleStd sampEnProbe)
      (refTemplatesOf sampEnProbe 2) ≠ 0 := by
    rw [orderedCountLe_eq_orderedCountEqT _ _ hiffR2]
    decide
  have hse : sampleEntropyFn defaultExtractorConfig sampEnProbe = none := by
    simp only [sampleEntropyFn]
    rw [if_neg (ne_of_gt hrpos)]
    rw [if_pos (Or.inl (show countMatches sampEnProbe
      (defaultExtractorConfig.nl_m + 1)
      ((defaultExtractorConfig.nl_r_factor : ℝ) * sampleStd sampEnProbe) = 0
      from hA))]
  have hnl : extractNonlinear defaultExtractorConfig sampEnProbe
      = ⟨none, sampEnProbe.length, false⟩ := by
    simp only [extractNonlinear]
    rw [if_neg (show ¬ sampEnProbe.length
      < defaultExtractorConfig.nl_min_intervals by decide)]
    rw [hse]
    rw [if_neg (show ¬ validNonlinear ⟨none, sampEnProbe.length, true⟩ from by
      rintro ⟨v, hv, -⟩
      simp at hv)]
  have href : specSampleEntropyRef defaultExtractorConfig sampEnProbe
      ≠ none := by
    have hAr' : orderedCountLe
        ((defaultExtractorConfig.nl_r_factor : ℝ) * sampleStd sampEnProbe)
        (refTemplatesOf sampEnProbe (defaultExtractorConfig.nl_m + 1)) = 2 :=
      hAr
    have hBr' : orderedCountLe
        ((defaultExtractorConfig.nl_r_factor : ℝ) * sampleStd sampEnProbe)
        (refTemplatesOf sampEnProbe defaultExtractorConfig.nl_m) ≠ 0 := hBr
    simp only [specSampleEntropyRef]
    rw [if_neg (ne_of_gt hrpos)]
    rw [if_neg (show ¬(orderedCountLe
        ((defaultExtractorConfig.nl_r_factor : ℝ) * sampleStd sampEnProbe)
        (refTemplatesOf sampEnProbe (defaultExtractorConfig.nl_m + 1)) = 0
      ∨ orderedCountLe
        ((defaultExtractorConfig.nl_r_factor : ℝ) * sampleStd sampEnProbe)
        (refTemplatesOf sampEnProbe defaultExtractorConfig.nl_m) = 0) from by
      rintro (h | h)
      · omega
      · exact hBr' h)]
    simp
  exact ⟨by decide, by rw [hnl], by rw [hnl], href⟩

end GuardianAngel
